import Mathlib

/-!
Verification development for the olive-cli task engine.

Shallow embedding of the task-execution core of the repository:

- `olive/tasks/models.py`: `TaskStatus`, `TaskSpec`, `TaskResult`, `Task`
  (atomic persistence, `Task.run`, `Task.cancel`);
- `olive/tasks/__init__.py`: `TaskManager.create_task` (with its inner
  `_run_wrapper`), `wait_for_result`, `cancel_task`;
- `olive/tasks/runner.py`: `run_task_from_file`;
- `olive/sandbox/__init__.py`: `SandboxManager.build`, `_auto_refresh`,
  `dispatch_task`.

Effects (file writes, hook dispatches, log lines, completion signals) are
made explicit as event traces so that ordering and occurrence properties
can be stated and proved.
-/

set_option autoImplicit false

namespace Olive

/-! ### olive.tasks.models: status, spec, result -/

/-- `TaskStatus` from `olive/tasks/models.py`: lifecycle states for a task. -/
inductive TaskStatus
  | pending
  | running
  | completed
  | failed
  | cancelled
deriving DecidableEq, Repr

/-- `TaskResult` from `olive/tasks/models.py`: outcome of a task execution. -/
structure TaskResult where
  output : Option String := none
  error : Option String := none
  status : TaskStatus := .completed
deriving DecidableEq, Repr

/-- `TaskSpec` from `olive/tasks/models.py`: identity and input payload of a
task.  Timestamps are omitted: no claim depends on their values, only on the
order of the save events, which the traces record. -/
structure TaskSpec where
  id : String
  name : String
  input : Option String := none
  return_id : Option String := none
deriving DecidableEq, Repr

/-- `TaskSpec.path`: the spec is persisted at `<tasks-root>/<id>.json`. -/
def TaskSpec.path (s : TaskSpec) : String :=
  s.id ++ ".json"

/-- `TaskSpec.result_path`: the result file is named
`<return_id or id>.result.json`. -/
def TaskSpec.result_path (s : TaskSpec) : String :=
  (s.return_id.getD s.id) ++ ".result.json"

/-- How a file write reaches the disk: `atomicReplace` models the
tmp-file-then-`Path.replace`/`rename` pattern, `direct` models a plain
`write_text` with no temporary file. -/
inductive WriteMode
  | atomicReplace
  | direct
deriving DecidableEq, Repr

/-- One file write, as observed by a reader of the directory.  When the write
serializes a `TaskResult`, `result?` records it (so one can ask whether the
document on disk carries a status); spec writes have `result? = none`. -/
structure FsWrite where
  path : String
  mode : WriteMode
  result? : Option TaskResult := none
deriving DecidableEq, Repr

/-- `TaskSpec.save` from `olive/tasks/models.py`: writes the spec JSON to a
`.tmp` file and then `Path.replace`s it over the canonical path (atomic). -/
def TaskSpec.save (s : TaskSpec) : FsWrite :=
  { path := s.path, mode := .atomicReplace, result? := none }

/-- `TaskResult.save` from `olive/tasks/models.py`: writes the result JSON to
a `.tmp` file and then `Path.replace`s it over `spec.result_path()` (atomic). -/
def TaskResult.save (r : TaskResult) (spec : TaskSpec) : FsWrite :=
  { path := spec.result_path, mode := .atomicReplace, result? := some r }

/-! ### Execution traces for the local TaskManager path -/

/-- How the awaited work item terminates, from the point of view of the
`await self._coro_factory()` call inside `Task.run`:
it returns a value, raises an `Exception`, or is cancelled
(`asyncio.CancelledError`, which is not an `Exception` on Python 3.8+). -/
inductive Outcome
  | success (out : String)
  | failure (msg : String)
  | cancelledAt
deriving DecidableEq, Repr

/-- How a Python call returns to its caller: normally, by propagating
`asyncio.CancelledError`, or by propagating an `Exception` with text `msg`. -/
inductive PyExit
  | normal
  | cancelledErr
  | exc (msg : String)
deriving DecidableEq, Repr

/-- The mutable fields of the in-memory `Task` object touched by execution. -/
structure TaskState where
  status : TaskStatus := .pending
  result : Option TaskResult := none
deriving DecidableEq, Repr

/-- Observable events of the local execution path, in program order. -/
inductive Ev
  | hook (event : String)
  | write (w : FsWrite)
  | runBegin
  | schedule
  | signal
  | logWarn (msg : String)
deriving DecidableEq, Repr

/-- `Task.run` from `olive/tasks/models.py`.  Sets status to running, awaits
the work item; on a value sets completed and builds the result; on an
`Exception` catches it, sets failed and captures `str(exc)` into the result
error; on cancellation the `except Exception` clause does not match and the
`CancelledError` propagates.  The `finally` block saves the result (when one
was built) and swallows save errors.  Returns the final task state, the
events emitted, and how the call exits. -/
def Task.run (spec : TaskSpec) (o : Outcome) : TaskState × List Ev × PyExit :=
  match o with
  | .success out =>
      let r : TaskResult := { output := some out, error := none, status := .completed }
      ({ status := .completed, result := some r },
       [Ev.runBegin, Ev.write (TaskResult.save r spec)], .normal)
  | .failure msg =>
      let r : TaskResult := { output := none, error := some msg, status := .failed }
      ({ status := .failed, result := some r },
       [Ev.runBegin, Ev.write (TaskResult.save r spec)], .normal)
  | .cancelledAt =>
      ({ status := .running, result := none }, [Ev.runBegin], .cancelledErr)

/-- The inner `_run_wrapper` of `TaskManager.create_task`
(`olive/tasks/__init__.py`), parametric in the behaviour of the awaited
`task.run()` body so the wrapper is embedded with all three of its `except`
branches.  After acquiring the semaphore it fires the start hook, awaits the
body, then: a normal return fires the finish hook; a `CancelledError` sets
status cancelled, fires the cancel hook and re-raises; an `Exception` sets
status failed, captures the text into a result and fires the fail hook.  The
`finally` block saves the spec, saves the result when one exists, and, when
the captured main loop is open, schedules the waiter event set. -/
def run_wrapper (spec : TaskSpec) (body : TaskState × List Ev × PyExit)
    (mainLoopOpen : Bool) : TaskState × List Ev × PyExit :=
  let st := body.1
  let bodyEvs := body.2.1
  let bodyExit := body.2.2
  let branch : TaskState × List Ev × PyExit :=
    match bodyExit with
    | .normal => (st, [Ev.hook "finish"], .normal)
    | .cancelledErr =>
        ({ st with status := .cancelled }, [Ev.hook "cancel"], .cancelledErr)
    | .exc msg =>
        let r : TaskResult := { output := none, error := some msg, status := .failed }
        ({ st with status := .failed, result := some r }, [Ev.hook "fail"], .normal)
  let st2 := branch.1
  let finallyEvs : List Ev :=
    [Ev.write (TaskSpec.save spec)] ++
    (match st2.result with
     | some r => [Ev.write (TaskResult.save r spec)]
     | none => []) ++
    (if mainLoopOpen then [Ev.signal] else [])
  (st2, [Ev.hook "start"] ++ bodyEvs ++ branch.2.1 ++ finallyEvs, branch.2.2)

/-- The wrapper applied to the real body `Task.run`, i.e. what one scheduled
task actually does on the background loop. -/
def task_exec (spec : TaskSpec) (o : Outcome) (mainLoopOpen : Bool) :
    TaskState × List Ev × PyExit :=
  run_wrapper spec (Task.run spec o) mainLoopOpen

/-- `TaskManager.create_task` from `olive/tasks/__init__.py`, effect view.
On first use the caller loop is captured: when `main_loop` is not yet set and
the calling thread has no running event loop, a `RuntimeError` is raised
before the spec is built, persisted or scheduled.  Otherwise the spec is
saved immediately, the create hook fires, and the wrapper is scheduled onto
the background loop.  Returns the outcome and the events performed. -/
def create_task (main_loop : Option Unit) (hasRunningLoop : Bool)
    (spec : TaskSpec) : Except String Unit × List Ev :=
  match main_loop with
  | none =>
      if hasRunningLoop then
        (.ok (), [Ev.write spec.save, Ev.hook "create", Ev.schedule])
      else
        (.error "TaskManager.create_task() must be called inside an event loop", [])
  | some _ =>
      (.ok (), [Ev.write spec.save, Ev.hook "create", Ev.schedule])

/-- Full sequential trace of one task through the happy scheduling path:
the `create_task` events followed by the scheduled wrapper events.  The
wrapper runs only after `create_task` scheduled it, so trace order models
the happens-before order of the claims. -/
def task_trace (spec : TaskSpec) (o : Outcome) (mainLoopOpen : Bool) : List Ev :=
  (create_task (some ()) true spec).2 ++ (task_exec spec o mainLoopOpen).2.1

/-! ### Trace checkers -/

/-- Is this event a disk write of a serialized `TaskResult`? -/
def isResultWrite : Ev → Bool
  | .write w => w.result?.isSome
  | _ => false

/-- Is this event a disk write of a `TaskSpec`? -/
def isSpecWrite : Ev → Bool
  | .write w => w.result?.isNone
  | _ => false

/-- Is this event the completion signal hand-off to the caller loop? -/
def isSignal : Ev → Bool
  | .signal => true
  | _ => false

/-- Is this event the start of the work item itself? -/
def isRunBegin : Ev → Bool
  | .runBegin => true
  | _ => false

/-- `precedesAll p q l`: in `l`, no `p`-event occurs after any `q`-event;
equivalently every `p`-event precedes every `q`-event. -/
def precedesAll (p q : Ev → Bool) : List Ev → Bool
  | [] => true
  | e :: rest =>
      (if q e then rest.all (fun x => ! p x) else true) && precedesAll p q rest

/-- `someBeforeFirst p q l`: a `p`-event occurs strictly before the first
`q`-event of `l` (holds vacuously when `l` has no `q`-event). -/
def someBeforeFirst (p q : Ev → Bool) : List Ev → Bool
  | [] => true
  | e :: rest =>
      if q e then false
      else if p e then true
      else someBeforeFirst p q rest

/-! ### olive.tasks.runner: the remote task-runner -/

/-- A tool from the tool registry: `run(input)` returns an output string or
raises (modelled as `Except.error` carrying the exception text). -/
structure Tool where
  run : String → Except String String

/-- The tool registry collaborator: `get(name)` returns the tool or `None`. -/
structure ToolRegistry where
  get : String → Option Tool

/-- `run_task_from_file` from `olive/tasks/runner.py`.  Loads the original
spec, builds a runtime spec with a fresh id but the original `return_id`,
`name` and `input`; raises when the tool is unknown; runs the tool on the
JSON-encoded input (an exception from `tool.run` propagates, nothing having
been written); on success builds a `TaskResult` with status completed and,
when `return_id` is set, writes it with a plain `write_text` (no temp file)
to `result_path()`, otherwise prints the JSON to the console.  Returns the
call outcome, the file writes performed, and the console prints. -/
def run_task_from_file (reg : ToolRegistry) (original : TaskSpec)
    (runtimeId : String) : Except String Unit × List FsWrite × List String :=
  let runtime : TaskSpec :=
    { id := runtimeId, name := original.name, input := original.input,
      return_id := original.return_id }
  match reg.get runtime.name with
  | none => (.error ("Tool " ++ runtime.name ++ " not found or not allowed."), [], [])
  | some tool =>
      match tool.run (runtime.input.getD "\x7b\x7d") with
      | .error e => (.error e, [], [])
      | .ok result =>
          let result_obj : TaskResult :=
            { output := some result, error := none, status := .completed }
          match runtime.return_id with
          | some _ =>
              (.ok (),
               [{ path := runtime.result_path, mode := .direct,
                  result? := some result_obj }],
               [])
          | none => (.ok (), [], [result])

/-! ### olive.sandbox: build, auto-refresh, dispatch -/

/-- The environment a `SandboxManager.dispatch_task` call runs against:
whether sandbox mode is enabled in prefs, whether `docker info` succeeds,
the active session id, whether the container is running, and whether the
`docker exec` of the task-runner returns zero (against a non-running
container it does not). -/
structure SandboxEnv where
  sandbox_enabled : Bool
  docker_ok : Bool
  session_id : Option String
  container_running : Bool
  exec_ok : Bool
deriving DecidableEq, Repr

/-- What the `docker_required` decorator does with one call: run the wrapped
body, or swallow the call (return `None` to the caller without raising). -/
inductive GuardResult
  | proceed
  | swallowed
deriving DecidableEq, Repr

/-- The `docker_required` decorator from `olive/sandbox/env.py`.  When
sandbox mode is disabled in prefs the docker check is skipped entirely and
the wrapped body runs.  Otherwise `docker info` is probed; on
`CalledProcessError` or `FileNotFoundError` the decorator prints, logs an
error and plainly `return`s — the body is skipped and the caller receives
`None`, with no exception raised.  When the probe succeeds the body runs. -/
def docker_required (sandbox_enabled : Bool) (docker_ok : Bool) : GuardResult :=
  if !sandbox_enabled then .proceed
  else if docker_ok then .proceed
  else .swallowed

/-- Outcome of a `SandboxManager.dispatch_task` call: a dispatched
acknowledgement, a waited-for result, the decorator swallowing the call
(returned `None`, nothing raised), or a raised failure (missing session
`RuntimeError`, exec `CalledProcessError`). -/
inductive DispatchOutcome
  | ack
  | result
  | skipped
  | errNoSession
  | errExec
deriving DecidableEq, Repr

/-- `SandboxManager.dispatch_task` from `olive/sandbox/__init__.py`, under
its `docker_required` decorator.  The decorator runs first (and may swallow
the call); then the session id is checked (a missing session raises
`RuntimeError` before anything is written); then the spec JSON is written
into the RPC directory via `NamedTemporaryFile` + `rename` (atomic); then
`docker exec ... olive run-task <path>` is invoked and a non-zero return
code raises `CalledProcessError`; then, unless `wait` is false or
`return_id` is absent, the call blocks on the result file (timeout `None`).
The body never calls `is_running()`.  Returns the outcome and the writes
performed into the shared directory. -/
def dispatch_task (e : SandboxEnv) (spec : TaskSpec) (wait : Bool) :
    DispatchOutcome × List FsWrite :=
  match docker_required e.sandbox_enabled e.docker_ok with
  | .swallowed => (.skipped, [])
  | .proceed =>
      match e.session_id with
      | none => (.errNoSession, [])
      | some _ =>
          let result_filename := spec.return_id.getD spec.id
          let w : FsWrite :=
            { path := "rpc/" ++ result_filename ++ ".json",
              mode := .atomicReplace, result? := none }
          if !e.exec_ok then (.errExec, [w])
          else if !wait || spec.return_id.isNone then (.ack, [w])
          else (.result, [w])

/-- The build-relevant persistent state of the sandbox: the
`.snapshot_hash` marker file content and how often the underlying build
tool has been invoked. -/
structure BuildState where
  marker : Option String
  tool_invocations : Nat
deriving DecidableEq, Repr

/-- `SandboxManager._auto_refresh` from `olive/sandbox/__init__.py`: false
when the sandbox is disabled; otherwise true exactly when the marker file is
missing or differs from the current composite snapshot hash (exceptions
while reading are caught and yield false). -/
def auto_refresh (sandbox_enabled : Bool) (current_hash : String)
    (st : BuildState) : Bool :=
  if !sandbox_enabled then false
  else decide (st.marker ≠ some current_hash)

/-- `SandboxManager.build` from `olive/sandbox/__init__.py`.  With backend
NONE (sandbox disabled) the build is skipped.  Otherwise
`refresh_required = _auto_refresh() or force`; when false the call returns
without touching anything.  When a rebuild is required, the snapshot is
staged, the marker file is rewritten with the current composite hash
(before the tool runs), and the build tool is invoked exactly once; a
non-zero exit raises.  `current_hash` is the composite hash, held fixed
across consecutive calls when the settings tree, packaged snapshot and
extra OS packages are unchanged. -/
def build (sandbox_enabled : Bool) (current_hash : String) (build_ok : Bool)
    (force : Bool) (st : BuildState) : BuildState × Except String Unit :=
  if !sandbox_enabled then (st, .ok ())
  else if !(auto_refresh sandbox_enabled current_hash st || force) then (st, .ok ())
  else
    let st' : BuildState :=
      { marker := some current_hash, tool_invocations := st.tool_invocations + 1 }
    if build_ok then (st', .ok ())
    else (st', .error "Container build failed - see log for details.")

/-! ### TaskManager in-memory state: cancellation and waiting -/

/-- The in-memory `Task` object fields relevant to cancellation and result
lookup.  `handle` is the `_task` private attribute: `none` when unset (its
`PrivateAttr(default=None)` value), `some done` when an asyncio task handle
with the given done flag is attached.  No statement in
`TaskManager.create_task` or `_run_wrapper` ever assigns `_task`. -/
structure PyTask where
  status : TaskStatus := .pending
  result : Option TaskResult := none
  handle : Option Bool := none
deriving DecidableEq, Repr

/-- `Task.__init__` via `create_task`: `status` pending, no result, and the
`_task` handle left at its default `None`. -/
def Task.new : PyTask := {}

/-- `Task.cancel` from `olive/tasks/models.py`: when `self._task` is set and
not done, cancel the handle (requesting interruption at the next suspension
point) and set status cancelled; in every other case do nothing.  The second
component records whether an interruption was requested. -/
def Task.cancel (t : PyTask) : PyTask × Bool :=
  match t.handle with
  | some false => ({ t with status := .cancelled }, true)
  | _ => (t, false)

/-- The `TaskManager` dictionaries touched by `cancel_task` and
`wait_for_result`. -/
structure MgrState where
  tasks : List (String × PyTask)
  result_events : List String
deriving DecidableEq, Repr

/-- `TaskManager.cancel_task` from `olive/tasks/__init__.py`:
`if task := self.tasks.get(task_id): task.cancel()` — an unseen id takes the
falsy branch, running nothing and logging nothing.  Returns the new state,
whether an interruption was requested, and the log lines emitted. -/
def cancel_task (m : MgrState) (task_id : String) : MgrState × Bool × List String :=
  match m.tasks.lookup task_id with
  | some t =>
      let c := Task.cancel t
      ({ m with
         tasks := m.tasks.map (fun p => if p.1 = task_id then (p.1, c.1) else p) },
       c.2, [])
  | none => (m, false, [])

/-- `TaskManager.cancel_all`: `Task.cancel` on every tracked task. -/
def cancel_all (m : MgrState) : MgrState :=
  { m with tasks := m.tasks.map (fun p => (p.1, (Task.cancel p.2).1)) }

/-- `TaskManager.wait_for_result` from `olive/tasks/__init__.py`.  An id with
no registered waiter event logs a warning and returns `None`; an elapsed
timeout (`asyncio.wait_for` raising `TimeoutError`, which is caught) logs a
warning and returns `None`; otherwise the task result (or `None` when the
task vanished) is returned.  The source performs only dictionary lookups and
catches the timeout, so the call is total: it never throws — reflected here
by a plain (exception-free) return type. -/
def wait_for_result (m : MgrState) (task_id : String) (timed_out : Bool) :
    Option TaskResult × List String :=
  if task_id ∈ m.result_events then
    if timed_out then (none, ["Timeout waiting for " ++ task_id])
    else
      match m.tasks.lookup task_id with
      | some t => (t.result, [])
      | none => (none, [])
  else (none, ["Unknown task id: " ++ task_id])

/-- The file writes contained in an event trace, in order. -/
def writesOf : List Ev → List FsWrite
  | [] => []
  | .write w :: rest => w :: writesOf rest
  | _ :: rest => writesOf rest

/-- A tool whose `run` always raises, for evaluating the runner on a
failing work item. -/
def boomTool : Tool :=
  { run := fun _ => .error "boom" }

/-- A registry holding only `boomTool` under the name `shell`. -/
def boomReg : ToolRegistry :=
  { get := fun n => if n = "shell" then some boomTool else none }

/-- A tool whose `run` echoes its input, for evaluating the runner on a
succeeding work item. -/
def echoTool : Tool :=
  { run := fun s => .ok s }

/-- A registry holding only `echoTool` under the name `echo`. -/
def echoReg : ToolRegistry :=
  { get := fun n => if n = "echo" then some echoTool else none }

/-! ### The counting permit: bounded concurrent execution

`_run_wrapper` brackets each task in `async with self._sema:` where
`self._sema = asyncio.Semaphore(self.max_concurrency)`.  The scheduler is a
single cooperative loop, so the lifetime of one task interleaves with the
others at suspension points only.  The model below is the induced transition
system: each submitted task moves through the phases pend (scheduled, not
yet past the semaphore), holding (permit acquired — the moment the start
hook fires), running (`Task.run` set status running), doneHolding (terminal
status set, permit still held) and released (left the `async with` block).
A step acquiring the permit is enabled only while fewer than `N` permits are
held, exactly the semaphore discipline. -/

/-- Phase of one submitted task relative to the counting permit. -/
inductive Phase
  | pend
  | holding
  | running
  | doneHolding
  | released
deriving DecidableEq, Repr

/-- Phases during which the task holds one unit of the semaphore. -/
def isHolder : Phase → Bool
  | .holding | .running | .doneHolding => true
  | _ => false

/-- Scheduler state: the phase of every submitted task, by position. -/
abbrev Sched := List Phase

/-- Number of permits currently held. -/
def holders (s : Sched) : Nat :=
  s.countP isHolder

/-- Number of tasks whose `TaskStatus` is running. -/
def runningCount (s : Sched) : Nat :=
  s.countP (fun p => decide (p = .running))

/-- One interleaved scheduler step: task `i` acquires the permit (firing its
start hook), begins its work, reaches a terminal status, or releases the
permit. -/
inductive SStep
  | acq (i : Nat)
  | beg (i : Nat)
  | fin (i : Nat)
  | rel (i : Nat)
deriving DecidableEq, Repr

/-- Guarded small-step semantics of the permit discipline: `none` when the
step is not enabled in state `s` with bound `N`. -/
def applyStep (N : Nat) (s : Sched) : SStep → Option Sched
  | .acq i =>
      if s[i]? = some Phase.pend ∧ holders s < N then some (s.set i .holding)
      else none
  | .beg i =>
      if s[i]? = some Phase.holding then some (s.set i .running) else none
  | .fin i =>
      if s[i]? = some Phase.running then some (s.set i .doneHolding) else none
  | .rel i =>
      if s[i]? = some Phase.doneHolding then some (s.set i .released) else none

/-- Run a list of scheduler steps; `none` when any step is not enabled. -/
def runSched (N : Nat) : Sched → List SStep → Option Sched
  | s, [] => some s
  | s, st :: rest =>
      match applyStep N s st with
      | some s' => runSched N s' rest
      | none => none

/-- Initial state after `M` simultaneous submissions: every task scheduled,
none past the semaphore. -/
def initSched (M : Nat) : Sched :=
  List.replicate M .pend

/-- Does the step acquire the permit (the moment the start hook fires)? -/
def isAcq : SStep → Bool
  | .acq _ => true
  | _ => false

/-- Does the step release the permit? -/
def isRel : SStep → Bool
  | .rel _ => true
  | _ => false

/-! ### Scheduler lemmas -/

/-- `countP` after a point update, in subtraction-free form. -/
theorem countP_set_point {α : Type} (p : α → Bool) (l : List α) :
    ∀ (i : Nat) (a b : α), l[i]? = some b →
      (l.set i a).countP p + (if p b then 1 else 0)
        = l.countP p + (if p a then 1 else 0) := by
  induction l with
  | nil => intro i a b h; simp at h
  | cons x xs ih =>
    intro i a b h
    cases i with
    | zero =>
      simp only [List.getElem?_cons_zero, Option.some.injEq] at h
      subst h
      simp only [List.set_cons_zero, List.countP_cons]
      omega
    | succ n =>
      simp only [List.getElem?_cons_succ] at h
      have := ih n a b h
      simp only [List.set_cons_succ, List.countP_cons]
      omega

/-- Every enabled step changes the number of held permits by exactly the
acquire/release balance of the step. -/
theorem applyStep_holders {N : Nat} {s s' : Sched} {st : SStep}
    (h : applyStep N s st = some s') :
    holders s' + (if isRel st then 1 else 0)
      = holders s + (if isAcq st then 1 else 0) := by
  cases st with
  | acq i =>
    simp only [applyStep] at h
    split at h
    · rename_i hg
      cases h
      have := countP_set_point isHolder s i Phase.holding Phase.pend hg.1
      simp only [isHolder] at this
      simp only [isRel, isAcq, holders]
      omega
    · simp at h
  | beg i =>
    simp only [applyStep] at h
    split at h
    · rename_i hg
      cases h
      have := countP_set_point isHolder s i Phase.running Phase.holding hg
      simp only [isHolder] at this
      simp only [isRel, isAcq, holders]
      omega
    · simp at h
  | fin i =>
    simp only [applyStep] at h
    split at h
    · rename_i hg
      cases h
      have := countP_set_point isHolder s i Phase.doneHolding Phase.running hg
      simp only [isHolder] at this
      simp only [isRel, isAcq, holders]
      omega
    · simp at h
  | rel i =>
    simp only [applyStep] at h
    split at h
    · rename_i hg
      cases h
      have := countP_set_point isHolder s i Phase.released Phase.doneHolding hg
      simp only [isHolder] at this
      simp only [isRel, isAcq, holders]
      omega
    · simp at h

/-- Every enabled step keeps the number of held permits at or under the
bound: the acquire guard demands strict slack first. -/
theorem applyStep_holders_le {N : Nat} {s s' : Sched} {st : SStep}
    (h : applyStep N s st = some s') (hb : holders s ≤ N) : holders s' ≤ N := by
  have hbal := applyStep_holders h
  cases st with
  | acq i =>
    have hg : holders s < N := by
      simp only [applyStep] at h
      split at h
      · rename_i hg; exact hg.2
      · simp at h
    simp [isRel, isAcq] at hbal
    omega
  | beg i => simp [isRel, isAcq] at hbal; omega
  | fin i => simp [isRel, isAcq] at hbal; omega
  | rel i => simp [isRel, isAcq] at hbal; omega

/-- Permit balance over a whole valid run. -/
theorem runSched_holders {N : Nat} :
    ∀ (l : List SStep) (s s' : Sched), runSched N s l = some s' →
      holders s' + l.countP isRel = holders s + l.countP isAcq := by
  intro l
  induction l with
  | nil =>
    intro s s' h
    simp only [runSched, Option.some.injEq] at h
    subst h
    simp
  | cons st rest ih =>
    intro s s' h
    simp only [runSched] at h
    cases happ : applyStep N s st with
    | none => rw [happ] at h; simp at h
    | some sm =>
      rw [happ] at h
      have h1 := applyStep_holders happ
      have h2 := ih sm s' h
      simp only [List.countP_cons]
      omega

/-- The permit bound is an invariant of every valid run. -/
theorem runSched_holders_le {N : Nat} :
    ∀ (l : List SStep) (s s' : Sched), runSched N s l = some s' →
      holders s ≤ N → holders s' ≤ N := by
  intro l
  induction l with
  | nil =>
    intro s s' h hb
    simp only [runSched, Option.some.injEq] at h
    subst h
    exact hb
  | cons st rest ih =>
    intro s s' h hb
    simp only [runSched] at h
    cases happ : applyStep N s st with
    | none => rw [happ] at h; simp at h
    | some sm =>
      rw [happ] at h
      exact ih sm s' h (applyStep_holders_le happ hb)

/-- A run decomposes over list append. -/
theorem runSched_append {N : Nat} :
    ∀ (l₁ l₂ : List SStep) (s : Sched),
      runSched N s (l₁ ++ l₂)
        = (runSched N s l₁).bind (fun sm => runSched N sm l₂) := by
  intro l₁
  induction l₁ with
  | nil => intro l₂ s; simp [runSched]
  | cons st rest ih =>
    intro l₂ s
    simp only [List.cons_append, runSched]
    cases happ : applyStep N s st with
    | none => simp
    | some sm => simpa using ih l₂ sm

/-- Tasks with status running all hold a permit. -/
theorem runningCount_le_holders (s : Sched) : runningCount s ≤ holders s := by
  refine List.countP_mono_left ?_
  intro x _ hx
  cases x <;> simp [isHolder] at hx ⊢

/-- A single step can leave task `i` in phase doneHolding only when it was
already there or the step is exactly `fin i`. -/
theorem applyStep_doneHolding {N : Nat} {s s' : Sched} {st : SStep} {i : Nat}
    (h : applyStep N s st = some s') (hd : s'[i]? = some Phase.doneHolding) :
    s[i]? = some Phase.doneHolding ∨ st = SStep.fin i := by
  cases st with
  | acq j =>
    simp only [applyStep] at h
    split at h
    · cases h
      by_cases hij : j = i
      · subst hij
        simp [List.getElem?_set] at hd
      · rw [List.getElem?_set_ne hij] at hd
        exact Or.inl hd
    · simp at h
  | beg j =>
    simp only [applyStep] at h
    split at h
    · cases h
      by_cases hij : j = i
      · subst hij
        simp [List.getElem?_set] at hd
      · rw [List.getElem?_set_ne hij] at hd
        exact Or.inl hd
    · simp at h
  | fin j =>
    simp only [applyStep] at h
    split at h
    · cases h
      by_cases hij : j = i
      · subst hij
        exact Or.inr rfl
      · rw [List.getElem?_set_ne hij] at hd
        exact Or.inl hd
    · simp at h
  | rel j =>
    simp only [applyStep] at h
    split at h
    · cases h
      by_cases hij : j = i
      · subst hij
        simp [List.getElem?_set] at hd
      · rw [List.getElem?_set_ne hij] at hd
        exact Or.inl hd
    · simp at h

/-- Along a valid run, a task found in phase doneHolding either started
there or finished (`fin i`) somewhere in the run. -/
theorem runSched_doneHolding {N : Nat} :
    ∀ (l : List SStep) (s s' : Sched) (i : Nat),
      runSched N s l = some s' → s'[i]? = some Phase.doneHolding →
      s[i]? = some Phase.doneHolding ∨ SStep.fin i ∈ l := by
  intro l
  induction l with
  | nil =>
    intro s s' i h hd
    simp only [runSched, Option.some.injEq] at h
    subst h
    exact Or.inl hd
  | cons st rest ih =>
    intro s s' i h hd
    simp only [runSched] at h
    cases happ : applyStep N s st with
    | none => rw [happ] at h; simp at h
    | some sm =>
      rw [happ] at h
      rcases ih sm s' i h hd with hm | hmem
      · rcases applyStep_doneHolding happ hm with hs | hst
        · exact Or.inl hs
        · subst hst
          exact Or.inr (List.mem_cons_self _ _)
      · exact Or.inr (List.mem_cons_of_mem _ hmem)

/-- A permit release of task `i` in a valid run whose start state does not
already have `i` in phase doneHolding is preceded by `fin i`: a task
releases only after reaching a terminal status. -/
theorem rel_requires_fin {N : Nat} {l₁ l₂ : List SStep} {i : Nat}
    {s s' : Sched}
    (h : runSched N s (l₁ ++ SStep.rel i :: l₂) = some s')
    (hs : s[i]? ≠ some Phase.doneHolding) :
    SStep.fin i ∈ l₁ := by
  rw [runSched_append] at h
  cases h1 : runSched N s l₁ with
  | none => rw [h1] at h; simp at h
  | some sm =>
    rw [h1] at h
    simp only [Option.some_bind, runSched] at h
    cases happ : applyStep N sm (SStep.rel i) with
    | none => rw [happ] at h; simp at h
    | some s2 =>
      have hguard : sm[i]? = some Phase.doneHolding := by
        simp only [applyStep] at happ
        split at happ
        · rename_i hg; exact hg
        · simp at happ
      rcases runSched_doneHolding l₁ s sm i h1 hguard with hcase | hmem
      · exact absurd hcase hs
      · exact hmem

/-- The initial state holds no permits. -/
theorem holders_initSched (M : Nat) : holders (initSched M) = 0 := by
  simp [holders, initSched, List.countP_replicate, isHolder]

/-- An acquire performed after the first `N` acquires is enabled only
because some earlier task completed and released its permit: the prefix
contains a `rel j`, itself preceded by `fin j`. -/
theorem acq_after_full {N M : Nat} {l₁ l₂ : List SStep} {i : Nat} {s' : Sched}
    (h : runSched N (initSched M) (l₁ ++ SStep.acq i :: l₂) = some s')
    (hA : N ≤ l₁.countP isAcq) :
    ∃ j, SStep.rel j ∈ l₁ ∧ SStep.fin j ∈ l₁ := by
  have hsplit := h
  rw [runSched_append] at hsplit
  cases h1 : runSched N (initSched M) l₁ with
  | none => rw [h1] at hsplit; simp at hsplit
  | some sm =>
    rw [h1] at hsplit
    simp only [Option.some_bind, runSched] at hsplit
    cases happ : applyStep N sm (SStep.acq i) with
    | none => rw [happ] at hsplit; simp at hsplit
    | some s2 =>
      have hg : holders sm < N := by
        simp only [applyStep] at happ
        split at happ
        · rename_i hgg; exact hgg.2
        · simp at happ
      have hbal := runSched_holders l₁ (initSched M) sm h1
      rw [holders_initSched] at hbal
      have hRpos : 0 < l₁.countP isRel := by omega
      obtain ⟨a, ha, hpa⟩ := List.countP_pos_iff.mp hRpos
      cases a with
      | acq j => simp [isRel] at hpa
      | beg j => simp [isRel] at hpa
      | fin j => simp [isRel] at hpa
      | rel j =>
        obtain ⟨u, v, huv⟩ := List.append_of_mem ha
        have hre : runSched N (initSched M)
            (u ++ SStep.rel j :: (v ++ SStep.acq i :: l₂)) = some s' := by
          have : l₁ ++ SStep.acq i :: l₂
              = u ++ SStep.rel j :: (v ++ SStep.acq i :: l₂) := by
            rw [huv]
            simp
          rw [← this]
          exact h
        have hinit : (initSched M)[j]? ≠ some Phase.doneHolding := by
          simp only [initSched, List.getElem?_replicate]
          split <;> simp
        have hfin : SStep.fin j ∈ u := rel_requires_fin hre hinit
        refine ⟨j, ?_, ?_⟩
        · rw [huv]
          simp
        · rw [huv]
          exact List.mem_append_left _ hfin

/-! ### Claims -/

/-- C1, as stated, fails on the code: for a work item raising
`Exception("boom")`, the task does end failed with the exception text in
`TaskResult.error` and nothing propagates to the scheduler, but the hook
fired in that terminal case is `finish`, not `fail` — `Task.run` catches the
exception itself, so `_run_wrapper`'s `except Exception` branch (the only
dispatcher of the `fail` hook) never runs. -/
theorem C1_counterexample :
    ¬ ((task_exec { id := "t", name := "work" } (.failure "boom") true).1.status
          = .failed ∧
       (task_exec { id := "t", name := "work" } (.failure "boom") true).1.result
          = some { output := none, error := some "boom", status := .failed } ∧
       (task_exec { id := "t", name := "work" } (.failure "boom") true).2.2
          = .normal ∧
       Ev.hook "fail"
          ∈ (task_exec { id := "t", name := "work" } (.failure "boom") true).2.1) := by
  decide

/-- C1 (amended): for every task whose work item raises an exception, the
task ends failed with the exception text captured in `TaskResult.error` and
the exception is never propagated to the scheduler, but the terminal hook
fired is `finish`; the `fail` hook is not fired (it is unreachable for
work-item exceptions, which `Task.run` swallows). -/
theorem C1_failed_work_item (spec : TaskSpec) (msg : String) (mainLoopOpen : Bool) :
    (task_exec spec (.failure msg) mainLoopOpen).1.status = .failed ∧
    (task_exec spec (.failure msg) mainLoopOpen).1.result
      = some { output := none, error := some msg, status := .failed } ∧
    (task_exec spec (.failure msg) mainLoopOpen).2.2 = .normal ∧
    Ev.hook "finish" ∈ (task_exec spec (.failure msg) mainLoopOpen).2.1 ∧
    Ev.hook "fail" ∉ (task_exec spec (.failure msg) mainLoopOpen).2.1 := by
  cases mainLoopOpen <;>
    simp [task_exec, run_wrapper, Task.run, TaskResult.save, TaskSpec.save]

/-- C8: in every terminal outcome of a task — success, work-item exception
or cancellation — the sequential trace persists the `TaskSpec` strictly
before the work item begins executing, and every `TaskResult` persistence
precedes the completion signal hand-off, so a woken waiter sees a
fully-written result on disk. -/
theorem C8_persistence_order (spec : TaskSpec) (o : Outcome) (mainLoopOpen : Bool) :
    someBeforeFirst isSpecWrite isRunBegin (task_trace spec o mainLoopOpen) = true ∧
    precedesAll isResultWrite isSignal (task_trace spec o mainLoopOpen) = true := by
  cases o <;> cases mainLoopOpen <;> exact ⟨rfl, rfl⟩

/-- C10: when the first `create_task` call on a `TaskManager` is made from a
thread with no running event loop, a `RuntimeError` is raised before any
`TaskSpec` is persisted and before any work is scheduled: the call returns
the error with an empty effect trace. -/
theorem C10_no_loop_failure (spec : TaskSpec) :
    create_task none false spec
      = (.error "TaskManager.create_task() must be called inside an event loop",
         []) := by
  rfl

/-- C2, as stated, fails on the code: executing a spec with
`return_id = some "r"` against a tool whose run raises finishes (the
exception propagates) with no file written at all — `run_task_from_file`
writes the result file only after a successful `tool.run`, so on failure no
`r.result.json` exists. -/
theorem C2_counterexample :
    ¬ ∃ w ∈ (run_task_from_file boomReg
          { id := "t", name := "shell", input := none, return_id := some "r" }
          "rt").2.1,
        w.path = "r.result.json" ∧ w.result?.isSome = true := by
  simp [run_task_from_file, boomReg, boomTool]

/-- C2 (amended): the remote task-runner writes a result file only when the
tool lookup and the tool run both succeed and the spec carries a
`return_id`; the file is then `<return_id>.result.json` and carries status
completed.  When the tool is missing or its run raises, the exception
propagates and no result file is written; without a `return_id` the result
goes to the console instead of a file. -/
theorem C2_result_write_conditions (reg : ToolRegistry) (original : TaskSpec)
    (rid : String) :
    (∀ e, (run_task_from_file reg original rid).1 = .error e →
        (run_task_from_file reg original rid).2.1 = []) ∧
    ((run_task_from_file reg original rid).1 = .ok () →
        match original.return_id with
        | some ret =>
            ∃ out,
              (run_task_from_file reg original rid).2.1
                = [{ path := ret ++ ".result.json", mode := .direct,
                     result? := some { output := some out, error := none,
                                       status := .completed } }]
        | none => (run_task_from_file reg original rid).2.1 = []) := by
  cases hg : reg.get original.name with
  | none => simp [run_task_from_file, hg]
  | some tool =>
    cases hr : tool.run (original.input.getD "\x7b\x7d") with
    | error e => simp [run_task_from_file, hg, hr]
    | ok out =>
      cases hret : original.return_id with
      | none => simp [run_task_from_file, hg, hr, hret]
      | some ret =>
        simp only [run_task_from_file, hg, hr, hret]
        exact ⟨fun e h => by simp at h, fun _ => ⟨out, by simp [TaskSpec.result_path]⟩⟩

/-- Witness for C2 (amended): the echo tool with `return_id = "r"` produces
exactly one direct write of a completed result at `r.result.json`. -/
theorem C2_result_write_conditions_witness :
    ∃ out,
      (run_task_from_file echoReg
          { id := "t", name := "echo", input := some "hi", return_id := some "r" }
          "rt").2.1
        = [{ path := "r" ++ ".result.json", mode := .direct,
             result? := some { output := some out, error := none,
                               status := .completed } }] :=
  (C2_result_write_conditions echoReg
      { id := "t", name := "echo", input := some "hi", return_id := some "r" }
      "rt").2 rfl

/-- C3, as stated, fails on the code: the remote task-runner path writes its
result file with a plain `write_text` — at the concrete echo dispatch the
single result write does not use the temp-file-then-atomic-rename pattern. -/
theorem C3_counterexample :
    ¬ ((run_task_from_file echoReg
          { id := "t", name := "echo", input := some "hi", return_id := some "r" }
          "rt").2.1.all
        (fun fw => decide (fw.mode = WriteMode.atomicReplace)) = true) := by
  simp [run_task_from_file, echoReg, echoTool]

set_option linter.unnecessarySeqFocus false in
/-- C3 (amended): the local path is atomic throughout — `TaskSpec.save`,
`TaskResult.save`, every write in a task execution trace and the
`dispatch_task` RPC write all use temp-file-then-atomic-rename — but the
remote task-runner path is not: every result write it performs is a plain
direct `write_text`. -/
theorem C3_write_modes (r : TaskResult) (s : TaskSpec) (o : Outcome)
    (mainLoopOpen : Bool) (e : SandboxEnv) (w : Bool)
    (reg : ToolRegistry) (orig : TaskSpec) (rid : String) :
    (TaskResult.save r s).mode = .atomicReplace ∧
    (TaskSpec.save s).mode = .atomicReplace ∧
    ((writesOf (task_trace s o mainLoopOpen)).all
        (fun fw => decide (fw.mode = WriteMode.atomicReplace)) = true) ∧
    ((dispatch_task e s w).2.all
        (fun fw => decide (fw.mode = WriteMode.atomicReplace)) = true) ∧
    ((run_task_from_file reg orig rid).2.1.all
        (fun fw => decide (fw.mode = WriteMode.direct)) = true) := by
  refine ⟨rfl, rfl, ?_, ?_, ?_⟩
  · cases o <;> cases mainLoopOpen <;> rfl
  · rcases e with ⟨se, dk, sid, cr, eo⟩
    cases se <;> cases dk <;> rcases sid with _ | sv <;> cases eo <;> cases w <;>
      simp [dispatch_task, docker_required] <;> (try split) <;> simp
  · cases hg : reg.get orig.name with
    | none => simp [run_task_from_file, hg]
    | some tool =>
      cases hr : tool.run (orig.input.getD "\x7b\x7d") with
      | error er => simp [run_task_from_file, hg, hr]
      | ok out =>
        cases hret : orig.return_id with
        | none => simp [run_task_from_file, hg, hr, hret]
        | some ret => simp [run_task_from_file, hg, hr, hret]

/-- C4, as stated, fails on the code: with an active session but a
non-running sandbox container, `dispatch_task` raises only when the
`docker exec` step fails — after the task-spec file has already been
written into the RPC directory, whose contents are therefore changed. -/
theorem C4_counterexample :
    (dispatch_task
        { sandbox_enabled := true, docker_ok := true, session_id := some "s",
          container_running := false, exec_ok := false }
        { id := "t", name := "shell", input := none, return_id := some "r" }
        true).1 = .errExec ∧
    (dispatch_task
        { sandbox_enabled := true, docker_ok := true, session_id := some "s",
          container_running := false, exec_ok := false }
        { id := "t", name := "shell", input := none, return_id := some "r" }
        true).2 ≠ [] := by
  decide

/-- C4 (amended): the only failure `dispatch_task` raises before any file
is written to the RPC directory is the missing-session `RuntimeError`.
With sandbox mode enabled and docker unavailable, the `docker_required`
decorator does not raise at all: it swallows the call (prints, logs,
returns `None`) with nothing written.  When a session is active and the
guard proceeds, the task-spec file is written into the RPC directory first,
and the failure against a non-running container (the exec returning
non-zero) is raised only afterwards. -/
theorem C4_dispatch_guards (e : SandboxEnv) (spec : TaskSpec) (wait : Bool) :
    (e.sandbox_enabled = true → e.docker_ok = false →
        dispatch_task e spec wait = (.skipped, [])) ∧
    (docker_required e.sandbox_enabled e.docker_ok = .proceed →
     e.session_id = none →
        dispatch_task e spec wait = (.errNoSession, [])) ∧
    (docker_required e.sandbox_enabled e.docker_ok = .proceed →
     e.session_id.isSome = true → e.exec_ok = false →
        (dispatch_task e spec wait).1 = .errExec ∧
        (dispatch_task e spec wait).2
          = [{ path := "rpc/" ++ (spec.return_id.getD spec.id) ++ ".json",
               mode := .atomicReplace, result? := none }]) := by
  rcases e with ⟨se, dk, sid, cr, eo⟩
  cases se <;> cases dk <;> rcases sid with _ | sv <;> cases eo <;>
    simp [dispatch_task, docker_required]

/-- Witness for C4 (amended): with no active session the dispatch fails
with nothing written. -/
theorem C4_dispatch_guards_witness :
    dispatch_task
        { sandbox_enabled := true, docker_ok := true, session_id := none,
          container_running := false, exec_ok := false }
        { id := "t", name := "shell" } true = (.errNoSession, []) :=
  (C4_dispatch_guards
      { sandbox_enabled := true, docker_ok := true, session_id := none,
        container_running := false, exec_ok := false }
      { id := "t", name := "shell" } true).2.1 rfl rfl

/-- C5 (code evaluation at the failing input): `create_task` never assigns
the `_task` private attribute, so for a manager-created task — here one
currently running — `cancel_task` hits `Task.cancel`'s falsy branch: the
status is left running (not flipped to cancelled), no interruption is
requested, and nothing is logged. -/
theorem C5_code_evaluation :
    cancel_task
        { tasks := [("t1", { status := .running, result := none, handle := none })],
          result_events := ["t1"] } "t1"
      = ({ tasks := [("t1", { status := .running, result := none, handle := none })],
           result_events := ["t1"] }, false, []) := by
  decide

/-- C6: two consecutive `build()` calls with force false, an unchanged
composite hash, a working backend and a stale (or absent) stamp invoke the
underlying build tool exactly once across both calls: the first call
succeeds after one invocation and rewrites the stamp, and the second call
is a no-op returning the state unchanged. -/
theorem C6_build_idempotent (hash : String) (st : BuildState)
    (hstale : st.marker ≠ some hash) :
    (build true hash true false st).2 = .ok () ∧
    (build true hash true false st).1.tool_invocations
      = st.tool_invocations + 1 ∧
    build true hash true false (build true hash true false st).1
      = ((build true hash true false st).1, .ok ()) := by
  simp [build, auto_refresh, hstale]

/-- Witness for C6: from a fresh state with no stamp, the hash `h` builds
once and the second call is a no-op. -/
theorem C6_build_idempotent_witness :
    (build true "h" true false { marker := none, tool_invocations := 0 }).2
      = .ok () ∧
    (build true "h" true false
        { marker := none, tool_invocations := 0 }).1.tool_invocations = 0 + 1 ∧
    build true "h" true false
        (build true "h" true false { marker := none, tool_invocations := 0 }).1
      = ((build true "h" true false { marker := none, tool_invocations := 0 }).1,
         .ok ()) :=
  C6_build_idempotent "h" { marker := none, tool_invocations := 0 } (by decide)

/-- C7: under the semaphore discipline with bound `N`, every reachable state
of any interleaving has at most `N` tasks in status running, and an acquire
(the moment a task's start hook fires) that comes after the first `N`
acquires is possible only because some earlier task finished and released
its permit. -/
theorem C7_bounded_concurrency (N M : Nat) (l : List SStep) (s' : Sched)
    (h : runSched N (initSched M) l = some s') :
    runningCount s' ≤ N ∧
    (∀ l₁ i l₂, l = l₁ ++ SStep.acq i :: l₂ → N ≤ l₁.countP isAcq →
        ∃ j, SStep.rel j ∈ l₁ ∧ SStep.fin j ∈ l₁) := by
  constructor
  · have hb := runSched_holders_le l (initSched M) s' h
      (by simp [holders_initSched])
    exact le_trans (runningCount_le_holders s') hb
  · intro l₁ i l₂ hl hA
    subst hl
    exact acq_after_full h hA

/-- Witness for C7: with one permit and two submissions, the second acquire
is enabled only after the first task finished and released. -/
theorem C7_bounded_concurrency_witness :
    runningCount [Phase.released, Phase.holding] ≤ 1 ∧
    (∀ l₁ i l₂,
        [SStep.acq 0, SStep.beg 0, SStep.fin 0, SStep.rel 0, SStep.acq 1]
          = l₁ ++ SStep.acq i :: l₂ →
        1 ≤ l₁.countP isAcq →
        ∃ j, SStep.rel j ∈ l₁ ∧ SStep.fin j ∈ l₁) :=
  C7_bounded_concurrency 1 2
    [SStep.acq 0, SStep.beg 0, SStep.fin 0, SStep.rel 0, SStep.acq 1]
    [Phase.released, Phase.holding] (by decide)

/-- C9, as stated, fails on the code in its cancel half: cancelling an id
the manager has never seen is a silent no-op — `cancel_task` has no logging
statement in its falsy branch, so the claim that it is logged is false at
the empty manager. -/
theorem C9_counterexample :
    ¬ ((cancel_task { tasks := [], result_events := [] } "ghost").1
          = { tasks := [], result_events := [] } ∧
       (cancel_task { tasks := [], result_events := [] } "ghost").2.2 ≠ []) := by
  decide

/-- C9 (amended): for an id never returned by `create_task` (hence with no
waiter event and no task entry), `wait_for_result` returns `None` for every
timeout and never throws (it is total), logging the unknown id; cancel
against such an id leaves the manager unchanged, requests no interruption,
and logs nothing. -/
theorem C9_unknown_id (m : MgrState) (id : String)
    (hev : id ∉ m.result_events) (htk : m.tasks.lookup id = none) :
    (∀ timed_out : Bool, (wait_for_result m id timed_out).1 = none) ∧
    (wait_for_result m id false).2 = ["Unknown task id: " ++ id] ∧
    cancel_task m id = (m, false, []) := by
  refine ⟨fun t => ?_, ?_, ?_⟩
  · simp [wait_for_result, hev]
  · simp [wait_for_result, hev]
  · simp [cancel_task, htk]

/-- Witness for C9 (amended): the empty manager with the unseen id. -/
theorem C9_unknown_id_witness :
    (∀ timed_out : Bool,
        (wait_for_result { tasks := [], result_events := [] } "ghost"
          timed_out).1 = none) ∧
    (wait_for_result { tasks := [], result_events := [] } "ghost" false).2
      = ["Unknown task id: " ++ "ghost"] ∧
    cancel_task { tasks := [], result_events := [] } "ghost"
      = ({ tasks := [], result_events := [] }, false, []) :=
  C9_unknown_id { tasks := [], result_events := [] } "ghost" (by decide) rfl

end Olive
